import Mathlib

/-!
Shallow embedding of `src/api/main.py` (movie-recommendation-app backend).

Modelling conventions:

* JSON values decoded by Python's `json.loads` are modelled by the inductive
  type `JsonVal` (numbers as `Int`; the claims never involve fractional
  numbers).  `json.loads` itself is third-party library code, so it is passed
  to the embedded functions as an abstract parameter
  `loads : String → Option JsonVal` (`none` = `json.JSONDecodeError`);
  theorems are stated relative to it.
* The OpenAI client call `client.responses.create` (lines 75-84) is external:
  its outcome is an input `callResult : Except String String`
  (`.error e` = the exception message of line 85-86, `.ok t` = the value of
  `resp.output_text`, with Python's `None or ""` already collapsed to `""`).
  The fallback scan of `resp.output` (lines 90-103) produces a list of text
  pieces; that list is the input `fallbackPieces`.
* Python `str.strip()` is modelled by `pyStrip` (removes leading and
  trailing whitespace).
* The SQLite column `recommended_movies` stores `json.dumps(normalized)` and
  is only ever read back through `json.loads`.  Since `json.loads ∘ json.dumps`
  is the identity on the JSON values produced here (strings, `None`, lists,
  dicts), the column is modelled at value level as a `JsonVal`
  (`encodeSuggestions` is the value that `json.dumps` serializes and that
  `json.loads` returns on read).
* `datetime.utcnow()` timestamps are modelled as abstract `Nat` ticks supplied
  by the caller; `datetime.isoformat` becomes their canonical rendering.
-/

namespace MovieRec

/-- A decoded JSON value (the result type of Python's `json.loads`). -/
inductive JsonVal : Type where
  | null : JsonVal
  | bool : Bool → JsonVal
  | num : Int → JsonVal
  | str : String → JsonVal
  | arr : List JsonVal → JsonVal
  | obj : List (String × JsonVal) → JsonVal

mutual

/-- Python `repr` of a decoded JSON value (used by `str` on non-string
values: `str(None) = "None"`, `str(True) = "True"`, numbers print as
digits, lists/dicts print with their elements' reprs). -/
def pyRepr : JsonVal → String
  | .null => "None"
  | .bool true => "True"
  | .bool false => "False"
  | .num n => toString n
  | .str s => "\x27" ++ s ++ "\x27"
  | .arr xs => "[" ++ pyReprArr xs ++ "]"
  | .obj kvs => "\x7b" ++ pyReprObj kvs ++ "\x7d"

/-- Comma-separated reprs of the elements of a Python list. -/
def pyReprArr : List JsonVal → String
  | [] => ""
  | [x] => pyRepr x
  | x :: xs => pyRepr x ++ ", " ++ pyReprArr xs

/-- Comma-separated `'key': value` reprs of the entries of a Python dict. -/
def pyReprObj : List (String × JsonVal) → String
  | [] => ""
  | [kv] => "\x27" ++ kv.1 ++ "\x27: " ++ pyRepr kv.2
  | kv :: kvs => "\x27" ++ kv.1 ++ "\x27: " ++ pyRepr kv.2 ++ ", " ++ pyReprObj kvs

end

/-- Python `str()` applied to a decoded JSON value: a string is returned
unchanged, everything else renders as its repr. -/
def pyStr : JsonVal → String
  | .str s => s
  | v => pyRepr v

/-- Lookup in a decoded JSON object.  `json.loads` keeps the LAST value for a
duplicated key, so the last matching entry wins. -/
def objGet : List (String × JsonVal) → String → Option JsonVal
  | [], _ => none
  | kv :: kvs, k =>
    match objGet kvs k with
    | some v => some v
    | none => if kv.1 = k then some kv.2 else none

/-- Python `item.get(k)` on a decoded JSON dict: `None` both when the key is
absent and when it maps to JSON null (both are Python `None`). -/
def pyGet (kvs : List (String × JsonVal)) (k : String) : JsonVal :=
  (objGet kvs k).getD .null

/-- Python `item.get(k, d)` with an explicit default. -/
def pyGetD (kvs : List (String × JsonVal)) (k : String) (d : JsonVal) : JsonVal :=
  (objGet kvs k).getD d

/-- Python `k in item` on a decoded JSON dict. -/
def pyHasKey (kvs : List (String × JsonVal)) (k : String) : Bool :=
  kvs.any (fun kv => kv.1 = k)

/-- Python `s.strip()`: remove leading and trailing whitespace (modelled over
the character list; Lean's whitespace predicate covers space, tab, CR, LF). -/
def pyStrip (s : String) : String :=
  String.mk (((s.toList.dropWhile Char.isWhitespace).reverse.dropWhile
    Char.isWhitespace).reverse)

/-- Python `s.find(c)`: index of the first occurrence, `-1` if absent. -/
def pyFind (s : String) (c : Char) : Int :=
  match s.toList.findIdx? (fun x => x = c) with
  | some i => (i : Int)
  | none => -1

/-- Python `s.rfind(c)`: index of the last occurrence, `-1` if absent. -/
def pyRfind (s : String) (c : Char) : Int :=
  match s.toList.reverse.findIdx? (fun x => x = c) with
  | some i => ((s.toList.length - 1 - i : Nat) : Int)
  | none => -1

/-- Python slice `s[a:b]` for nonnegative bounds. -/
def pySlice (s : String) (a b : Nat) : String :=
  String.mk ((s.toList.drop a).take (b - a))

/-- The final value of `text` after lines 88-103: `resp.output_text` stripped,
falling back to the stripped newline-join of the pieces gathered from
`resp.output` when the stripped output text is empty. -/
def finalText (outputText : String) (fallbackPieces : List String) : String :=
  let text := pyStrip outputText
  if text = "" then pyStrip (String.intercalate "\n" fallbackPieces) else text

/-- The `json.loads` outcome restricted to lists: `some` exactly when the parse
succeeded and the parsed value is a JSON array.  A successful parse of a
non-list raises `ValueError` inside the `try`, which the bare `except`
catches, so the code treats it exactly like a parse failure. -/
def asArr : Option JsonVal → Option (List JsonVal)
  | some (.arr xs) => some xs
  | _ => none

/-- The parse-and-extract block of `ask_openai_for_movies` (main.py lines
108-127), over the established response text: try the whole text as a JSON
array, else fall back to the first-`[`-to-last-`]` substring. -/
def parseMovies (loads : String → Option JsonVal) (text : String) :
    Except String (List JsonVal) :=
  match asArr (loads text) with
  | some parsed => .ok parsed
  | none =>
    let start := pyFind text '['
    let j := pyRfind text ']'
    if start ≠ -1 ∧ j ≠ -1 ∧ j > start then
      match asArr (loads (pySlice text start.toNat (j.toNat + 1))) with
      | some parsed => .ok parsed
      | none => .error ("Failed to parse JSON from model response.\nRaw response: " ++ text)
    else
      .error ("Model response did not contain a JSON array. Raw response: " ++ text)

/-- Embedding of `ask_openai_for_movies` (main.py lines 62-127), with the external call's
outcome and the `resp.output` fallback pieces as inputs.  Returns the parsed
JSON array on success and the `RuntimeError` message on failure. -/
def ask_openai_for_movies (loads : String → Option JsonVal)
    (callResult : Except String String) (fallbackPieces : List String) :
    Except String (List JsonVal) :=
  match callResult with
  | .error e => .error ("OpenAI API request failed: " ++ e)
  | .ok outputText =>
    let text := finalText outputText fallbackPieces
    if text = "" then .error "OpenAI response was empty"
    else parseMovies loads text

/-- The transient suggestion record (pydantic `MovieSuggestion`). -/
structure MovieSuggestion : Type where
  title : String
  year : Option String := none
  reason : Option String := none
deriving DecidableEq, Repr

/-- Normalization of one element of the parsed model array
(main.py lines 143-153): a dict containing a `title` key is kept with
`str(...)`-coerced fields (`title` additionally stripped, `year`/`reason`
`None` when absent or null); a bare string is kept stripped as a title-only
record; everything else is dropped. -/
def normalizeItem : JsonVal → Option MovieSuggestion
  | .obj kvs =>
    if pyHasKey kvs "title" then
      some { title := pyStrip (pyStr (pyGetD kvs "title" (.str "")))
             year := match pyGet kvs "year" with
               | .null => none
               | v => some (pyStr v)
             reason := match pyGet kvs "reason" with
               | .null => none
               | v => some (pyStr v) }
    else none
  | .str s => some { title := pyStrip s, year := none, reason := none }
  | _ => none

/-- The normalization loop of `recommend` (main.py lines 142-153). -/
def normalize (movie_list : List JsonVal) : List MovieSuggestion :=
  movie_list.filterMap normalizeItem

/-- The JSON value `json.dumps` serializes for one normalized suggestion
dict (main.py lines 145-149 / 153). -/
def encodeSuggestion (m : MovieSuggestion) : JsonVal :=
  .obj [("title", .str m.title),
        ("year", match m.year with | none => .null | some y => .str y),
        ("reason", match m.reason with | none => .null | some r => .str r)]

/-- The JSON value stored in the `recommended_movies` column: the serialized
normalized list. -/
def encodeSuggestions (l : List MovieSuggestion) : JsonVal :=
  .arr (l.map encodeSuggestion)

/-- One persisted row of the `recommendations` table. -/
structure Recommendation : Type where
  id : Nat
  user_input : String
  recommended_movies : JsonVal
  created_at : Nat

/-- The SQLite store: rows in insertion order plus the autoincrement
counter. -/
structure DB : Type where
  rows : List Recommendation
  nextId : Nat

/-- The empty freshly-created database. -/
def DB.empty : DB := { rows := [], nextId := 0 }

/-- An HTTP error response (`fastapi.HTTPException`). -/
structure HTTPException : Type where
  status_code : Nat
  detail : String
deriving DecidableEq, Repr

/-- The `POST /recommend` handler (main.py lines 130-165).  The database is
threaded explicitly; a raised `HTTPException` leaves it unchanged because in
the source both raises happen before `db.add`. -/
def recommend (loads : String → Option JsonVal) (db : DB) (now : Nat)
    (user_input : String) (callResult : Except String String)
    (fallbackPieces : List String) :
    DB × Except HTTPException (List MovieSuggestion) :=
  if user_input = "" ∨ pyStrip user_input = "" then
    (db, .error { status_code := 400, detail := "user_input must be a non-empty string" })
  else
    match ask_openai_for_movies loads callResult fallbackPieces with
    | .error e => (db, .error { status_code := 500, detail := e })
    | .ok movie_list =>
      let normalized := normalize movie_list
      let rec_ : Recommendation :=
        { id := db.nextId
          user_input := pyStrip user_input
          recommended_movies := encodeSuggestions normalized
          created_at := now }
      ({ rows := db.rows ++ [rec_], nextId := db.nextId + 1 }, .ok normalized)

/-- One entry of the `GET /history` response (main.py lines 173-178). -/
structure HistoryEntry : Type where
  id : Nat
  user_input : String
  recommended_movies : JsonVal
  created_at : String

/-- Rendering of `datetime.isoformat` on the abstract timestamp tick. -/
def isoformat (t : Nat) : String := toString t

/-- Descending creation-time order used by `order_by(created_at.desc())`. -/
def createdDesc (a b : Recommendation) : Prop := b.created_at ≤ a.created_at

instance : DecidableRel createdDesc := fun a b => Nat.decLe b.created_at a.created_at

/-- The rows selected by the history query: all rows sorted by creation time
descending, truncated to `limit`. -/
def historyRows (db : DB) (limit : Nat) : List Recommendation :=
  (List.insertionSort createdDesc db.rows).take limit

/-- One serialized history entry: `recommended_movies` is the value
`json.loads` recovers from the stored column and `created_at` is
ISO-formatted. -/
def historyEntryOf (r : Recommendation) : HistoryEntry :=
  { id := r.id
    user_input := r.user_input
    recommended_movies := r.recommended_movies
    created_at := isoformat r.created_at }

/-- The `GET /history` handler (main.py lines 168-179); `limit` defaults to
20 in the source. -/
def get_history (db : DB) (limit : Nat) : List HistoryEntry :=
  (historyRows db limit).map historyEntryOf

/-! ### Spec-side definitions used by the claims -/

/-- The bracket-substring fallback succeeds: the text has a `[` before a
`]` and the enclosed first-`[`-to-last-`]` substring parses as a JSON
array. -/
def bracketRecoverable (loads : String → Option JsonVal) (text : String) :
    Prop :=
  pyFind text '[' ≠ -1 ∧ pyRfind text ']' ≠ -1 ∧
  pyRfind text ']' > pyFind text '[' ∧
  ∃ xs, loads (pySlice text (pyFind text '[').toNat
    ((pyRfind text ']').toNat + 1)) = some (.arr xs)

/-- The upstream/parse failure condition described by the spec: the outbound
call raised, or the (post-fallback) response text is empty, or the text holds
no recoverable JSON array — it does not itself parse as a JSON array and the
first-`[`-to-last-`]` substring fallback does not either. -/
def upstreamOrParseFailure (loads : String → Option JsonVal)
    (callResult : Except String String) (fallbackPieces : List String) : Prop :=
  match callResult with
  | .error _ => True
  | .ok t =>
    finalText t fallbackPieces = "" ∨
    ((∀ xs, loads (finalText t fallbackPieces) ≠ some (.arr xs)) ∧
      ¬ bracketRecoverable loads (finalText t fallbackPieces))

/-- An array element that normalization keeps: a dict with a `title` key or a
bare string. -/
def keepableItem : JsonVal → Bool
  | .obj kvs => pyHasKey kvs "title"
  | .str _ => true
  | _ => false

/-- Decode one optional string field of a stored suggestion dict: absent or
null means `None`, a string is kept, anything else is not
`MovieSuggestion`-shaped. -/
def decodeOptStrField (kvs : List (String × JsonVal)) (k : String) :
    Option (Option String) :=
  match objGet kvs k with
  | none => some none
  | some .null => some none
  | some (.str s) => some (some s)
  | some _ => none

/-- Decode one stored JSON value as a `MovieSuggestion`-shaped record: a dict
whose `title` is a (non-null) string and whose `year`/`reason` are absent,
null, or strings. -/
def decodeSuggestion : JsonVal → Option MovieSuggestion
  | .obj kvs =>
    match objGet kvs "title", decodeOptStrField kvs "year",
        decodeOptStrField kvs "reason" with
    | some (.str t), some y, some r => some { title := t, year := y, reason := r }
    | _, _, _ => none
  | _ => none

/-- Decode a list of stored JSON values as `MovieSuggestion`-shaped records;
fails if any element is malformed. -/
def decodeSuggestionList : List JsonVal → Option (List MovieSuggestion)
  | [] => some []
  | v :: vs =>
    match decodeSuggestion v, decodeSuggestionList vs with
    | some m, some ms => some (m :: ms)
    | _, _ => none

/-- Deserialize a stored `recommended_movies` value as a well-formed sequence
of `MovieSuggestion`-shaped records. -/
def decodeSuggestions : JsonVal → Option (List MovieSuggestion)
  | .arr vs => decodeSuggestionList vs
  | _ => none

/-- The database states reachable from a fresh store through the app's
operations (`recommend` is the only state-changing one; `get_history` is a
pure read). -/
inductive Reachable : DB → Prop where
  | init : Reachable DB.empty
  | step (db : DB) (loads : String → Option JsonVal) (now : Nat) (u : String)
      (cr : Except String String) (fp : List String) :
      Reachable db → Reachable (recommend loads db now u cr fp).1

/-- Spec-side normalization of one array element, following the (amended)
spec text: a dict-shaped item containing a `title` key is kept, its title
coerced to a string and stripped of surrounding whitespace, its year and
reason coerced to strings (staying `None` when absent or null); a bare
string item becomes a record whose title is the string stripped of
surrounding whitespace; every other item is dropped. -/
def specNormalizeItem : JsonVal → Option MovieSuggestion
  | .obj kvs =>
    if pyHasKey kvs "title" then
      some (MovieSuggestion.mk (pyStrip (pyStr (pyGet kvs "title")))
        (match pyGet kvs "year" with
          | .null => none
          | v => some (pyStr v))
        (match pyGet kvs "reason" with
          | .null => none
          | v => some (pyStr v)))
    else none
  | .str s => some (MovieSuggestion.mk (pyStrip s) none none)
  | _ => none

/-! ### Concrete `json.loads` instantiations used by witnesses and
counterexamples -/

/-- A concrete parser recognizing only the literal text `["A"]`. -/
def loadsArrA : String → Option JsonVal := fun s =>
  if s = "[\"A\"]" then some (.arr [.str "A"]) else none

/-- A concrete parser recognizing only the literal text `[1]`. -/
def loadsNum : String → Option JsonVal := fun s =>
  if s = "[1]" then some (.arr [.num 1]) else none

/-! ### Helper lemmas -/

/-- Ordering instances for the descending creation-time sort. -/
instance : IsTotal Recommendation createdDesc :=
  ⟨fun a b => Nat.le_total b.created_at a.created_at⟩

instance : IsTrans Recommendation createdDesc :=
  ⟨fun _ _ _ h1 h2 => Nat.le_trans h2 h1⟩

theorem asArr_eq_some_iff (o : Option JsonVal) (xs : List JsonVal) :
    asArr o = some xs ↔ o = some (.arr xs) := by
  rcases o with _ | v
  · simp [asArr]
  · cases v <;> simp [asArr]

theorem asArr_eq_none_iff (o : Option JsonVal) :
    asArr o = none ↔ ∀ xs, o ≠ some (.arr xs) := by
  rcases o with _ | v
  · simp [asArr]
  · cases v <;> simp [asArr]

theorem parseMovies_error_iff (loads : String → Option JsonVal)
    (text : String) :
    (∃ e, parseMovies loads text = .error e) ↔
      ((∀ xs, loads text ≠ some (.arr xs)) ∧
        ¬ bracketRecoverable loads text) := by
  unfold parseMovies
  rcases hA : asArr (loads text) with _ | parsed
  · by_cases hc : pyFind text '[' ≠ -1 ∧ pyRfind text ']' ≠ -1 ∧
        pyRfind text ']' > pyFind text '['
    · rw [if_pos hc]
      rcases hS : asArr (loads (pySlice text (pyFind text '[').toNat
          ((pyRfind text ']').toNat + 1))) with _ | parsed
      · constructor
        · intro _
          refine ⟨(asArr_eq_none_iff _).mp hA, fun hrec => ?_⟩
          rcases hrec with ⟨_, _, _, xs, hxs⟩
          exact (asArr_eq_none_iff _).mp hS xs hxs
        · intro _
          exact ⟨_, rfl⟩
      · constructor
        · rintro ⟨e, he⟩
          exact Except.noConfusion he
        · rintro ⟨_, hrec⟩
          exact absurd ⟨hc.1, hc.2.1, hc.2.2, parsed,
            (asArr_eq_some_iff _ _).mp hS⟩ hrec
    · rw [if_neg hc]
      constructor
      · intro _
        exact ⟨(asArr_eq_none_iff _).mp hA,
          fun hrec => hc ⟨hrec.1, hrec.2.1, hrec.2.2.1⟩⟩
      · intro _
        exact ⟨_, rfl⟩
  · constructor
    · rintro ⟨e, he⟩
      exact Except.noConfusion he
    · rintro ⟨hdir, _⟩
      exact absurd ((asArr_eq_some_iff _ _).mp hA) (hdir parsed)

theorem parseMovies_ok_of_direct (loads : String → Option JsonVal)
    (text : String) (xs : List JsonVal)
    (h : loads text = some (.arr xs)) :
    parseMovies loads text = .ok xs := by
  unfold parseMovies
  rw [show asArr (loads text) = some xs from (asArr_eq_some_iff _ _).mpr h]

theorem ask_error_iff (loads : String → Option JsonVal)
    (cr : Except String String) (fp : List String) :
    (∃ e, ask_openai_for_movies loads cr fp = .error e) ↔
      upstreamOrParseFailure loads cr fp := by
  cases cr with
  | error e => simp [ask_openai_for_movies, upstreamOrParseFailure]
  | ok t =>
    show (∃ e, (if finalText t fp = "" then .error "OpenAI response was empty"
        else parseMovies loads (finalText t fp)) = Except.error e) ↔ _
    by_cases ht : finalText t fp = ""
    · simp [ht, upstreamOrParseFailure]
    · rw [if_neg ht]
      rw [show upstreamOrParseFailure loads (.ok t) fp =
        (finalText t fp = "" ∨ ((∀ xs, loads (finalText t fp) ≠ some (.arr xs)) ∧
          ¬ bracketRecoverable loads (finalText t fp))) from rfl]
      rw [parseMovies_error_iff]
      constructor
      · exact fun h => .inr h
      · rintro (h | h)
        · exact absurd h ht
        · exact h

theorem recommend_ok_eq (loads : String → Option JsonVal) (db : DB) (now : Nat)
    (u : String) (cr : Except String String) (fp : List String)
    (xs : List JsonVal) (h1 : ¬(u = "" ∨ pyStrip u = ""))
    (h2 : ask_openai_for_movies loads cr fp = .ok xs) :
    recommend loads db now u cr fp =
      (DB.mk (db.rows ++ [Recommendation.mk db.nextId (pyStrip u)
          (encodeSuggestions (normalize xs)) now]) (db.nextId + 1),
        .ok (normalize xs)) := by
  unfold recommend
  rw [if_neg h1, h2]

theorem recommend_err_eq (loads : String → Option JsonVal) (db : DB) (now : Nat)
    (u : String) (cr : Except String String) (fp : List String) (e : String)
    (h1 : ¬(u = "" ∨ pyStrip u = ""))
    (h2 : ask_openai_for_movies loads cr fp = .error e) :
    recommend loads db now u cr fp =
      (db, .error { status_code := 500, detail := e }) := by
  unfold recommend
  rw [if_neg h1, h2]

theorem recommend_ok_inv (loads : String → Option JsonVal) (db : DB)
    (now : Nat) (u : String) (cr : Except String String) (fp : List String)
    (recs : List MovieSuggestion)
    (h : (recommend loads db now u cr fp).2 = .ok recs) :
    ¬(u = "" ∨ pyStrip u = "") ∧
    ∃ xs, ask_openai_for_movies loads cr fp = .ok xs ∧ recs = normalize xs := by
  by_cases h1 : u = "" ∨ pyStrip u = ""
  · rw [recommend, if_pos h1] at h
    exact Except.noConfusion h
  · refine ⟨h1, ?_⟩
    rcases hask : ask_openai_for_movies loads cr fp with e | xs
    · rw [recommend_err_eq loads db now u cr fp e h1 hask] at h
      exact Except.noConfusion h
    · refine ⟨xs, rfl, ?_⟩
      rw [recommend_ok_eq loads db now u cr fp xs h1 hask] at h
      exact (Except.ok.inj h).symm

theorem recommend_error_inv (loads : String → Option JsonVal) (db : DB)
    (now : Nat) (u : String) (cr : Except String String) (fp : List String)
    (err : HTTPException) (h1 : ¬(u = "" ∨ pyStrip u = ""))
    (h : (recommend loads db now u cr fp).2 = .error err) :
    err.status_code = 500 ∧
    ask_openai_for_movies loads cr fp = .error err.detail := by
  rcases hask : ask_openai_for_movies loads cr fp with e | xs
  · rw [recommend_err_eq loads db now u cr fp e h1 hask] at h
    have h2 : HTTPException.mk 500 e = err := Except.error.inj h
    subst h2
    exact ⟨rfl, rfl⟩
  · rw [recommend_ok_eq loads db now u cr fp xs h1 hask] at h
    exact Except.noConfusion h

theorem recommend_rows_cases (loads : String → Option JsonVal) (db : DB)
    (now : Nat) (u : String) (cr : Except String String) (fp : List String) :
    (recommend loads db now u cr fp).1.rows = db.rows ∨
    ∃ l, (recommend loads db now u cr fp).1.rows =
      db.rows ++ [Recommendation.mk db.nextId (pyStrip u)
        (encodeSuggestions l) now] := by
  by_cases h1 : u = "" ∨ pyStrip u = ""
  · left
    rw [recommend, if_pos h1]
  · rcases hask : ask_openai_for_movies loads cr fp with e | xs
    · left
      rw [recommend_err_eq loads db now u cr fp e h1 hask]
    · right
      exact ⟨normalize xs, by rw [recommend_ok_eq loads db now u cr fp xs h1 hask]⟩

theorem decodeSuggestion_encodeSuggestion (m : MovieSuggestion) :
    decodeSuggestion (encodeSuggestion m) = some m := by
  rcases m with ⟨t, y, r⟩
  rcases y with _ | y <;> rcases r with _ | r <;>
    simp [decodeSuggestion, encodeSuggestion, decodeOptStrField, objGet]

theorem decodeSuggestionList_encode (l : List MovieSuggestion) :
    decodeSuggestionList (l.map encodeSuggestion) = some l := by
  induction l with
  | nil => rfl
  | cons m l ih =>
    simp only [List.map_cons, decodeSuggestionList,
      decodeSuggestion_encodeSuggestion, ih]

theorem decodeSuggestions_encodeSuggestions (l : List MovieSuggestion) :
    decodeSuggestions (encodeSuggestions l) = some l := by
  rw [encodeSuggestions, decodeSuggestions, decodeSuggestionList_encode]

theorem normalizeItem_isSome_eq_keepable (v : JsonVal) :
    (normalizeItem v).isSome = keepableItem v := by
  cases v with
  | obj kvs =>
    by_cases h : pyHasKey kvs "title" = true <;>
      simp [normalizeItem, keepableItem, h]
  | _ => rfl

theorem length_filterMap_eq_countP {α β : Type} (f : α → Option β)
    (l : List α) :
    (l.filterMap f).length = l.countP (fun a => (f a).isSome) := by
  induction l with
  | nil => rfl
  | cons a l ih =>
    rcases h : f a with _ | b <;>
      simp [List.filterMap_cons, h, List.countP_cons, ih]

theorem objGet_isSome_of_hasKey (kvs : List (String × JsonVal)) (k : String)
    (h : pyHasKey kvs k = true) : (objGet kvs k).isSome = true := by
  induction kvs with
  | nil => simp [pyHasKey] at h
  | cons kv kvs ih =>
    rw [pyHasKey, List.any_cons] at h
    rw [objGet]
    rcases ho : objGet kvs k with _ | v
    · rcases Bool.or_eq_true_iff.mp h with h1 | h1
      · rw [if_pos (by simpa using h1)]
        rfl
      · have := ih h1
        rw [ho] at this
        exact absurd this (by simp)
    · rfl

theorem pyGetD_eq_pyGet_of_hasKey (kvs : List (String × JsonVal)) (k : String)
    (d : JsonVal) (h : pyHasKey kvs k = true) :
    pyGetD kvs k d = pyGet kvs k := by
  have hs := objGet_isSome_of_hasKey kvs k h
  rw [pyGetD, pyGet]
  rcases ho : objGet kvs k with _ | v
  · rw [ho] at hs
    exact absurd hs (by simp)
  · rfl

theorem pyFind_nonneg_of_ne (s : String) (c : Char) (h : pyFind s c ≠ -1) :
    0 ≤ pyFind s c := by
  rw [pyFind] at h ⊢
  rcases hf : s.toList.findIdx? (fun x => x = c) with _ | i
  · rw [hf] at h
    exact absurd rfl h
  · exact Int.natCast_nonneg i

/-! ### Claim theorems -/

/-- Claim C1: a recommend request whose `user_input` is empty or
whitespace-only fails with HTTP 400 (detail
`user_input must be a non-empty string`) and leaves the store unchanged, so
no record is persisted. -/
theorem recommend_empty_input_400 (loads : String → Option JsonVal) (db : DB)
    (now : Nat) (u : String) (cr : Except String String) (fp : List String)
    (h : pyStrip u = "") :
    recommend loads db now u cr fp =
      (db, .error (HTTPException.mk 400 "user_input must be a non-empty string")) := by
  rw [recommend, if_pos (Or.inr h)]

/-- Witness for C1 at the concrete whitespace-only input. -/
theorem recommend_empty_input_400_witness :
    pyStrip "   " = "" ∧
    recommend (fun _ => none) DB.empty 0 "   " (.ok "") [] =
      (DB.empty, .error (HTTPException.mk 400 "user_input must be a non-empty string")) :=
  ⟨by decide,
    recommend_empty_input_400 (fun _ => none) DB.empty 0 "   " (.ok "") []
      (by decide)⟩

/-- Claim C2: with non-empty input, the recommend operation fails with HTTP
500 whose detail is the underlying error message exactly when the outbound
model call errors, the response text is empty, or the text contains no
recoverable JSON array. -/
theorem recommend_500_iff_upstream_or_parse (loads : String → Option JsonVal)
    (db : DB) (now : Nat) (u : String) (cr : Except String String)
    (fp : List String) (h1 : ¬(u = "" ∨ pyStrip u = "")) :
    ((∃ e, ask_openai_for_movies loads cr fp = .error e) ↔
      upstreamOrParseFailure loads cr fp) ∧
    (∀ e, ask_openai_for_movies loads cr fp = .error e →
      recommend loads db now u cr fp =
        (db, .error (HTTPException.mk 500 e))) ∧
    (∀ err, (recommend loads db now u cr fp).2 = .error err →
      err.status_code = 500 ∧
      ask_openai_for_movies loads cr fp = .error err.detail) :=
  ⟨ask_error_iff loads cr fp,
    fun e he => recommend_err_eq loads db now u cr fp e h1 he,
    fun err herr => recommend_error_inv loads db now u cr fp err h1 herr⟩

/-- Witness for C2 at a concrete failing model call. -/
theorem recommend_500_iff_upstream_or_parse_witness :
    (¬("hi" = "" ∨ pyStrip "hi" = "")) ∧
    (((∃ e, ask_openai_for_movies (fun _ => none) (.error "boom") [] = .error e) ↔
        upstreamOrParseFailure (fun _ => none) (.error "boom") []) ∧
      (∀ e, ask_openai_for_movies (fun _ => none) (.error "boom") [] = .error e →
        recommend (fun _ => none) DB.empty 0 "hi" (.error "boom") [] =
          (DB.empty, .error (HTTPException.mk 500 e))) ∧
      (∀ err, (recommend (fun _ => none) DB.empty 0 "hi" (.error "boom") []).2 =
          .error err →
        err.status_code = 500 ∧
        ask_openai_for_movies (fun _ => none) (.error "boom") [] =
          .error err.detail)) :=
  ⟨by decide,
    recommend_500_iff_upstream_or_parse (fun _ => none) DB.empty 0 "hi"
      (.error "boom") [] (by decide)⟩

/-- Claim C3: when the (non-empty) response text does not itself parse as a
JSON array but contains a `[` before a `]`, and the substring from the first
`[` to the last `]` parses as a JSON array, the model-call helper returns
that embedded array and recommend proceeds with it. -/
theorem prose_wrapped_extraction (loads : String → Option JsonVal) (db : DB)
    (now : Nat) (u : String) (t : String) (fp : List String)
    (ys : List JsonVal)
    (h1 : ¬(u = "" ∨ pyStrip u = ""))
    (ht : finalText t fp ≠ "")
    (hdirect : ∀ xs, loads (finalText t fp) ≠ some (.arr xs))
    (hfind : pyFind (finalText t fp) '[' ≠ -1)
    (hgt : pyRfind (finalText t fp) ']' > pyFind (finalText t fp) '[')
    (hsub : loads (pySlice (finalText t fp) (pyFind (finalText t fp) '[').toNat
      ((pyRfind (finalText t fp) ']').toNat + 1)) = some (.arr ys)) :
    ask_openai_for_movies loads (.ok t) fp = .ok ys ∧
    (recommend loads db now u (.ok t) fp).2 = .ok (normalize ys) := by
  have hrne : pyRfind (finalText t fp) ']' ≠ -1 := by
    intro hr
    rw [hr] at hgt
    have h0 := pyFind_nonneg_of_ne (finalText t fp) '[' hfind
    omega
  have hask : ask_openai_for_movies loads (.ok t) fp = .ok ys := by
    show (if finalText t fp = "" then .error "OpenAI response was empty"
      else parseMovies loads (finalText t fp)) = Except.ok ys
    rw [if_neg ht, parseMovies,
      (asArr_eq_none_iff (loads (finalText t fp))).mpr hdirect]
    rw [if_pos ⟨hfind, hrne, hgt⟩,
      (asArr_eq_some_iff _ ys).mpr hsub]
  refine ⟨hask, ?_⟩
  rw [recommend_ok_eq loads db now u (.ok t) fp ys h1 hask]

/-- Witness for C3 at a concrete prose-wrapped response. -/
theorem prose_wrapped_extraction_witness :
    (¬("hi" = "" ∨ pyStrip "hi" = "")) ∧
    finalText "Here you go: [\"A\"] enjoy" [] ≠ "" ∧
    (∀ xs, loadsArrA (finalText "Here you go: [\"A\"] enjoy" []) ≠
      some (.arr xs)) ∧
    pyFind (finalText "Here you go: [\"A\"] enjoy" []) '[' ≠ -1 ∧
    pyRfind (finalText "Here you go: [\"A\"] enjoy" []) ']' >
      pyFind (finalText "Here you go: [\"A\"] enjoy" []) '[' ∧
    loadsArrA (pySlice (finalText "Here you go: [\"A\"] enjoy" [])
      (pyFind (finalText "Here you go: [\"A\"] enjoy" []) '[').toNat
      ((pyRfind (finalText "Here you go: [\"A\"] enjoy" []) ']').toNat + 1)) =
      some (.arr [.str "A"]) ∧
    (ask_openai_for_movies loadsArrA (.ok "Here you go: [\"A\"] enjoy") [] =
      .ok [.str "A"] ∧
    (recommend loadsArrA DB.empty 0 "hi" (.ok "Here you go: [\"A\"] enjoy")
      []).2 = .ok (normalize [.str "A"])) := by
  have hdirect : ∀ xs, loadsArrA (finalText "Here you go: [\"A\"] enjoy" []) ≠
      some (.arr xs) := by
    intro xs h
    rw [show loadsArrA (finalText "Here you go: [\"A\"] enjoy" []) = none from
      rfl] at h
    exact Option.noConfusion h
  exact ⟨by decide, by decide, hdirect, by decide, by decide, by rfl,
    prose_wrapped_extraction loadsArrA DB.empty 0 "hi"
      "Here you go: [\"A\"] enjoy" [] [.str "A"] (by decide) (by decide)
      hdirect (by decide) (by decide) (by rfl)⟩

theorem countP_congr_of_eq {α : Type} (p q : α → Bool) (l : List α)
    (h : ∀ a ∈ l, p a = q a) : l.countP p = l.countP q := by
  induction l with
  | nil => rfl
  | cons a l ih =>
    rw [List.countP_cons, List.countP_cons,
      ih (fun b hb => h b (List.mem_cons_of_mem a hb)),
      h a (List.mem_cons_self a l)]

theorem countP_le_len {α : Type} (p : α → Bool) (l : List α) :
    l.countP p ≤ l.length := by
  induction l with
  | nil => exact Nat.le_refl 0
  | cons a l ih =>
    rw [List.countP_cons, List.length_cons]
    by_cases h : p a = true <;> simp [h] <;> omega

theorem normalizeItem_eq_spec (v : JsonVal) :
    normalizeItem v = specNormalizeItem v := by
  cases v with
  | obj kvs =>
    rw [normalizeItem, specNormalizeItem]
    by_cases h : pyHasKey kvs "title" = true
    · rw [if_pos h, if_pos h, pyGetD_eq_pyGet_of_hasKey kvs "title" (.str "") h]
    · rw [if_neg h, if_neg h]
  | null => rfl
  | bool b => rfl
  | num n => rfl
  | str s => rfl
  | arr xs => rfl

/-- Counterexample to C4 as stated: normalization strips a bare string item,
so the kept record's title is not that string verbatim. -/
theorem normalize_bare_string_counterexample :
    MovieRec.normalize [JsonVal.str " A "] ≠
      [MovieSuggestion.mk " A " none none] ∧
    MovieRec.normalize [JsonVal.str " A "] =
      [MovieSuggestion.mk "A" none none] :=
  ⟨by decide, by decide⟩

/-- Claim C4 (amended: a bare string item's title, like a dict item's
coerced title, is stripped of surrounding whitespace): normalization equals
the order-preserving element-wise spec map — dict-shaped items with a title
key are kept with coerced (and, for title, stripped) string fields, year and
reason staying None when absent or null; bare strings become stripped
title-only records; every other item is dropped. -/
theorem normalize_matches_spec (l : List JsonVal) :
    MovieRec.normalize l = l.filterMap specNormalizeItem := by
  rw [normalize]
  exact List.filterMap_congr (fun v _ => normalizeItem_eq_spec v)

/-- Counterexample to C5 as stated: the model returns the well-formed
one-element JSON array `[1]`, but the returned recommendations list is
empty, so the lengths differ. -/
theorem recommend_length_counterexample :
    ask_openai_for_movies loadsNum (.ok "[1]") [] = .ok [JsonVal.num 1] ∧
    (recommend loadsNum DB.empty 0 "hi" (.ok "[1]") []).2 =
      .ok (MovieRec.normalize [JsonVal.num 1]) ∧
    (MovieRec.normalize [JsonVal.num 1]).length ≠ [JsonVal.num 1].length :=
  ⟨by rfl, by rfl, by decide⟩

/-- Claim C5 (amended): for a well-formed JSON array response, the
recommendations list has length equal to the number of array elements that
normalization keeps — dicts with a title key and bare strings — hence at
most the array's length. -/
theorem recommend_length_eq_keepable (loads : String → Option JsonVal)
    (db : DB) (now : Nat) (u : String) (cr : Except String String)
    (fp : List String) (xs : List JsonVal)
    (h1 : ¬(u = "" ∨ pyStrip u = ""))
    (h2 : ask_openai_for_movies loads cr fp = .ok xs) :
    (recommend loads db now u cr fp).2 = .ok (normalize xs) ∧
    (normalize xs).length = xs.countP keepableItem ∧
    (normalize xs).length ≤ xs.length := by
  have hlen : (normalize xs).length = xs.countP keepableItem := by
    rw [normalize, length_filterMap_eq_countP]
    exact countP_congr_of_eq _ _ xs
      (fun v _ => normalizeItem_isSome_eq_keepable v)
  refine ⟨?_, hlen, ?_⟩
  · rw [recommend_ok_eq loads db now u cr fp xs h1 h2]
  · rw [hlen]
    exact countP_le_len keepableItem xs

/-- Witness for C5 (amended) at a concrete two-element array. -/
theorem recommend_length_eq_keepable_witness :
    (¬("hi" = "" ∨ pyStrip "hi" = "")) ∧
    ask_openai_for_movies loadsArrA (.ok "[\"A\"]") [] = .ok [.str "A"] ∧
    ((recommend loadsArrA DB.empty 0 "hi" (.ok "[\"A\"]") []).2 =
      .ok (normalize [.str "A"]) ∧
    (normalize [.str "A"]).length = [JsonVal.str "A"].countP keepableItem ∧
    (normalize [.str "A"]).length ≤ [JsonVal.str "A"].length) :=
  ⟨by decide, by rfl,
    recommend_length_eq_keepable loadsArrA DB.empty 0 "hi" (.ok "[\"A\"]") []
      [.str "A"] (by decide) (by rfl)⟩

/-- Claim C6: in every reachable database state, each persisted record's
`recommended_movies` value deserializes to a well-formed list of
`MovieSuggestion`-shaped records (title a non-null string), and the only
state-changing operation, `recommend`, can only append records — existing
rows are never updated or deleted. -/
theorem persisted_rows_wellformed (db : DB) (h : Reachable db) :
    (∀ r ∈ db.rows, ∃ l, decodeSuggestions r.recommended_movies = some l) ∧
    (∀ loads now u cr fp, ∃ tail,
      (recommend loads db now u cr fp).1.rows = db.rows ++ tail) := by
  constructor
  · induction h with
    | init =>
      intro r hr
      exact absurd hr (List.not_mem_nil r)
    | step db loads now u cr fp hdb ih =>
      intro r hr
      rcases recommend_rows_cases loads db now u cr fp with hcase | ⟨l, hcase⟩
      · rw [hcase] at hr
        exact ih r hr
      · rw [hcase] at hr
        rcases List.mem_append.mp hr with h1 | h1
        · exact ih r h1
        · have hre : r = Recommendation.mk db.nextId (pyStrip u)
              (encodeSuggestions l) now := by
            simpa using h1
          exact ⟨l, by rw [hre]; exact decodeSuggestions_encodeSuggestions l⟩
  · intro loads now u cr fp
    rcases recommend_rows_cases loads db now u cr fp with hcase | ⟨l, hcase⟩
    · exact ⟨[], by rw [hcase, List.append_nil]⟩
    · exact ⟨_, hcase⟩

/-- Witness for C6 at the concrete one-step reachable state. -/
theorem persisted_rows_wellformed_witness :
    Reachable (recommend loadsArrA DB.empty 0 "hi" (.ok "[\"A\"]") []).1 ∧
    ((∀ r ∈ (recommend loadsArrA DB.empty 0 "hi" (.ok "[\"A\"]") []).1.rows,
      ∃ l, decodeSuggestions r.recommended_movies = some l) ∧
    (∀ loads now u cr fp, ∃ tail,
      (recommend loads (recommend loadsArrA DB.empty 0 "hi" (.ok "[\"A\"]")
        []).1 now u cr fp).1.rows =
      (recommend loadsArrA DB.empty 0 "hi" (.ok "[\"A\"]") []).1.rows ++
        tail)) :=
  ⟨Reachable.step DB.empty loadsArrA 0 "hi" (.ok "[\"A\"]") [] Reachable.init,
    persisted_rows_wellformed _
      (Reachable.step DB.empty loadsArrA 0 "hi" (.ok "[\"A\"]") []
        Reachable.init)⟩

/-- Claim C7: for every store state and limit, the history listing returns
at most `limit` records (default 20 in the source), the selected rows are
sorted by creation time descending, and every returned entry is a persisted
row rendered with its deserialized suggestion list and ISO-formatted
timestamp. -/
theorem get_history_spec (db : DB) (limit : Nat) :
    (get_history db limit).length ≤ limit ∧
    List.Sorted createdDesc (historyRows db limit) ∧
    (∀ x ∈ get_history db limit, ∃ r ∈ db.rows, x = historyEntryOf r) := by
  refine ⟨?_, ?_, ?_⟩
  · rw [get_history, List.length_map, historyRows, List.length_take]
    exact min_le_left limit _
  · exact ((List.sorted_insertionSort createdDesc db.rows).sublist
      (List.take_sublist limit _))
  · intro x hx
    rcases List.mem_map.mp hx with ⟨r, hr, hfx⟩
    refine ⟨r, ?_, hfx.symm⟩
    exact (List.perm_insertionSort createdDesc db.rows).subset
      ((List.take_sublist limit _).subset hr)

/-- Claim C8: every successful recommend call appends exactly one record,
and deserializing that record's stored `recommended_movies` value yields
exactly the recommendations list the call returned. -/
theorem recommend_roundtrip (loads : String → Option JsonVal) (db : DB)
    (now : Nat) (u : String) (cr : Except String String) (fp : List String)
    (recs : List MovieSuggestion)
    (h : (recommend loads db now u cr fp).2 = .ok recs) :
    ∃ row, (recommend loads db now u cr fp).1.rows = db.rows ++ [row] ∧
      decodeSuggestions row.recommended_movies = some recs := by
  rcases recommend_ok_inv loads db now u cr fp recs h with ⟨h1, xs, hask, hrecs⟩
  refine ⟨Recommendation.mk db.nextId (pyStrip u)
    (encodeSuggestions (normalize xs)) now, ?_, ?_⟩
  · rw [recommend_ok_eq loads db now u cr fp xs h1 hask]
  · rw [hrecs]
    exact decodeSuggestions_encodeSuggestions (normalize xs)

/-- Witness for C8 at a concrete successful call. -/
theorem recommend_roundtrip_witness :
    (recommend loadsArrA DB.empty 0 "hi" (.ok "[\"A\"]") []).2 =
      .ok [MovieSuggestion.mk "A" none none] ∧
    ∃ row, (recommend loadsArrA DB.empty 0 "hi" (.ok "[\"A\"]") []).1.rows =
      DB.empty.rows ++ [row] ∧
      decodeSuggestions row.recommended_movies =
        some [MovieSuggestion.mk "A" none none] :=
  ⟨by rfl,
    recommend_roundtrip loadsArrA DB.empty 0 "hi" (.ok "[\"A\"]") []
      [MovieSuggestion.mk "A" none none] (by rfl)⟩

/-- Counterexample to C9 as stated: submitting `" hi "` persists
`user_input = "hi"`, not the raw text — the handler stores
`payload.user_input.strip()`. -/
theorem persisted_user_input_counterexample :
    (recommend loadsArrA DB.empty 0 " hi " (.ok "[\"A\"]") []).1.rows =
      [Recommendation.mk 0 "hi"
        (encodeSuggestions [MovieSuggestion.mk "A" none none]) 0] ∧
    "hi" ≠ " hi " :=
  ⟨by rfl, by decide⟩

/-- Claim C9 (amended): for every successful recommend call, the persisted
record's `user_input` equals the submitted text stripped of leading and
trailing whitespace. -/
theorem persisted_user_input_stripped (loads : String → Option JsonVal)
    (db : DB) (now : Nat) (u : String) (cr : Except String String)
    (fp : List String) (recs : List MovieSuggestion)
    (h : (recommend loads db now u cr fp).2 = .ok recs) :
    ∃ row, (recommend loads db now u cr fp).1.rows = db.rows ++ [row] ∧
      row.user_input = pyStrip u := by
  rcases recommend_ok_inv loads db now u cr fp recs h with ⟨h1, xs, hask, _⟩
  refine ⟨Recommendation.mk db.nextId (pyStrip u)
    (encodeSuggestions (normalize xs)) now, ?_, rfl⟩
  rw [recommend_ok_eq loads db now u cr fp xs h1 hask]

/-- Witness for C9 (amended) at a concrete successful call. -/
theorem persisted_user_input_stripped_witness :
    (recommend loadsArrA DB.empty 0 " hi " (.ok "[\"A\"]") []).2 =
      .ok [MovieSuggestion.mk "A" none none] ∧
    ∃ row, (recommend loadsArrA DB.empty 0 " hi " (.ok "[\"A\"]") []).1.rows =
      DB.empty.rows ++ [row] ∧ row.user_input = pyStrip " hi " :=
  ⟨by rfl,
    persisted_user_input_stripped loadsArrA DB.empty 0 " hi " (.ok "[\"A\"]")
      [] [MovieSuggestion.mk "A" none none] (by rfl)⟩

/-- Claim C10: with non-empty input, a model response parsing to an array
whose every element is dropped by normalization (in particular an empty
array) still succeeds: a record with an empty suggestion list is persisted
and an empty recommendations list is returned, not an error. -/
theorem recommend_empty_normalized_ok (loads : String → Option JsonVal)
    (db : DB) (now : Nat) (u : String) (cr : Except String String)
    (fp : List String) (xs : List JsonVal)
    (h1 : ¬(u = "" ∨ pyStrip u = ""))
    (h2 : ask_openai_for_movies loads cr fp = .ok xs)
    (h3 : normalize xs = []) :
    recommend loads db now u cr fp =
      (DB.mk (db.rows ++ [Recommendation.mk db.nextId (pyStrip u)
        (encodeSuggestions []) now]) (db.nextId + 1), .ok []) := by
  rw [recommend_ok_eq loads db now u cr fp xs h1 h2, h3]

/-- Witness for C10: the array `[1]` normalizes to nothing, yet the call
succeeds and persists an empty list. -/
theorem recommend_empty_normalized_ok_witness :
    (¬("hi" = "" ∨ pyStrip "hi" = "")) ∧
    ask_openai_for_movies loadsNum (.ok "[1]") [] = .ok [.num 1] ∧
    normalize [JsonVal.num 1] = [] ∧
    recommend loadsNum DB.empty 0 "hi" (.ok "[1]") [] =
      (DB.mk [Recommendation.mk 0 "hi" (encodeSuggestions []) 0] 1,
        .ok []) := by
  refine ⟨by decide, by rfl, by rfl, ?_⟩
  have := recommend_empty_normalized_ok loadsNum DB.empty 0 "hi" (.ok "[1]")
    [] [.num 1] (by decide) (by rfl) (by rfl)
  simpa using this

end MovieRec
